import Mathlib

/-!
# Verification of the MySoilMate plant-listing engine

Shallow embedding of `DatabaseStorage.getPlants` from
`server/database-storage.ts` (filtering, sorting, pagination over the
joined plant dataset), together with the data model from
`shared/schema.ts`.

Modelling conventions:
* The eagerly joined rows returned by `db.query.plants.findMany` are
  flattened into `PlantRec`: the join tables `plantZones`,
  `plantLightLevels`, `plantBloomSeasons` appear as the label lists
  `zones`, `lightLevels`, `bloomSeasons` (the code only ever reads the
  labels, e.g. `plant.plantZones.map(pz => pz.zone.zone)`).
* JavaScript strings are Lean `String`s; `toLowerCase` is `String.toLower`
  and `localeCompare`-based ordering is the lexicographic order on
  `String`.
* `Array.prototype.sort` is required to be stable by the ECMAScript
  specification, so it is modelled by `List.mergeSort` with the
  comparator translated to a `Bool`-valued `le` relation
  (`le a b ↔ comparator a b ≤ 0`, with a `NaN` comparator value treated
  as `0` per the ECMAScript `SortCompare` specification).
* `Math.min(...)` over zone numbers is modelled by `ZoneKey`:
  `Math.min()` of no arguments is `+Infinity` (`ZoneKey.inf`) and a
  `parseInt` failure (`NaN`) poisons the minimum (`ZoneKey.nan`).
* `parseInt` is modelled for decimal inputs (optional leading whitespace,
  optional sign, leading digit run); the hexadecimal `0x` prefix form is
  not modelled, since zone labels are decimal.
-/

namespace MySoilMate

/-- The sort keys accepted by `plantFilterSchema`:
`z.enum(['name', 'light', 'zone'])`. -/
inductive SortKey where
  | name
  | light
  | zone
deriving DecidableEq, Repr

/-- One fully joined plant row, as consumed by `getPlants`
(`shared/schema.ts`, type `PlantWithZones`).  Only the fields that
`getPlants` reads are modelled; `heightText` is a nullable column. -/
structure PlantRec where
  id : Nat
  name : String
  scientificName : String
  description : String
  waterNeeds : String
  heightText : Option String
  lightLevels : List String
  zones : List String
  bloomSeasons : List String
deriving DecidableEq, Repr

/-- The validated filter specification (`plantFilterSchema` in
`shared/schema.ts`).  Zod validation guarantees `1 ≤ page` and
`1 ≤ limit ≤ 100`; those bounds appear as hypotheses on the theorems. -/
structure PlantFilter where
  search : Option String
  lightLevels : Option (List String)
  waterNeeds : Option (List String)
  growZones : Option (List String)
  bloomSeasons : Option (List String)
  heightTexts : Option (List String)
  sort : Option SortKey
  page : Nat
  limit : Nat
deriving DecidableEq, Repr

/-- The shape of the value returned by `getPlants`
(`PaginatedPlantsResponse` in `shared/schema.ts`). -/
structure PaginatedPlantsResponse where
  plants : List PlantRec
  totalCount : Nat
  currentPage : Nat
  totalPages : Nat
  hasNextPage : Bool
  hasPreviousPage : Bool
deriving DecidableEq, Repr

/-! ## Search (substring test)

JavaScript `hay.includes(needle)`: `needle` occurs contiguously in
`hay`. -/

/-- `containsSeq needle hay`: `needle` is a contiguous subsequence of
`hay` (the JavaScript `String.prototype.includes` test, on character
lists). -/
def containsSeq (needle : List Char) : List Char → Bool
  | [] => needle.isEmpty
  | c :: rest => needle.isPrefixOf (c :: rest) || containsSeq needle rest

/-- JavaScript `hay.includes(needle)` on strings. -/
def strIncludes (hay needle : String) : Bool :=
  containsSeq needle.data hay.data

/-- The per-plant search test (`database-storage.ts:61-66`):
```js
const searchTerm = filter.search.toLowerCase();
plant.name.toLowerCase().includes(searchTerm) ||
plant.scientificName.toLowerCase().includes(searchTerm) ||
plant.description.toLowerCase().includes(searchTerm)
``` -/
def searchPred (search : String) (p : PlantRec) : Bool :=
  let searchTerm := search.toLower
  strIncludes p.name.toLower searchTerm ||
  strIncludes p.scientificName.toLower searchTerm ||
  strIncludes p.description.toLower searchTerm

/-! ## Category predicates (`database-storage.ts:70-107`) -/

/-- Light-levels test (`database-storage.ts:71-74`):
`filter.lightLevels!.some(level => plantLightLevels.includes(level))`. -/
def lightPred (vs : List String) (p : PlantRec) : Bool :=
  vs.any (fun v => p.lightLevels.contains v)

/-- Water-needs test (`database-storage.ts:79-81`):
`filter.waterNeeds!.includes(plant.waterNeeds)`. -/
def waterPred (vs : List String) (p : PlantRec) : Bool :=
  vs.contains p.waterNeeds

/-- Grow-zones test (`database-storage.ts:88-91`):
`filter.growZones!.some(zone => plantZonesValues.includes(zone))`. -/
def zonePred (vs : List String) (p : PlantRec) : Bool :=
  vs.any (fun v => p.zones.contains v)

/-- Bloom-seasons test (`database-storage.ts:96-99`):
`filter.bloomSeasons!.some(season => plantBloomSeasons.includes(season))`. -/
def bloomPred (vs : List String) (p : PlantRec) : Bool :=
  vs.any (fun v => p.bloomSeasons.contains v)

/-- Height-category test (`database-storage.ts:104-106`):
`plant.heightText && filter.heightTexts!.includes(plant.heightText)`
— a `null` or empty-string `heightText` is falsy, so the plant fails. -/
def heightPred (vs : List String) (p : PlantRec) : Bool :=
  match p.heightText with
  | none => false
  | some h => if h = "" then false else vs.contains h

/-! ## Filter stages

Each `if (...) { filteredPlants = filteredPlants.filter(...) }` block of
`getPlants` becomes one stage.  JavaScript truthiness: the search stage
fires for a present, non-empty string; a value-list stage fires when the
list is present with positive length. -/

/-- The search stage (`database-storage.ts:60-67`). -/
def searchStage (os : Option String) (ps : List PlantRec) : List PlantRec :=
  match os with
  | none => ps
  | some s => if s = "" then ps else ps.filter (searchPred s)

/-- A value-list stage: `if (filter.xs && filter.xs.length > 0)
filteredPlants = filteredPlants.filter(pred(filter.xs))`. -/
def listStage (ol : Option (List String)) (pred : List String → PlantRec → Bool)
    (ps : List PlantRec) : List PlantRec :=
  match ol with
  | none => ps
  | some vs => if vs.length > 0 then ps.filter (pred vs) else ps

/-- The full filtering pipeline of `getPlants`
(`database-storage.ts:58-107`), in source order: search, light levels,
water needs, grow zones, bloom seasons, height categories. -/
def filterStep (f : PlantFilter) (ps : List PlantRec) : List PlantRec :=
  listStage f.heightTexts heightPred
    (listStage f.bloomSeasons bloomPred
      (listStage f.growZones zonePred
        (listStage f.waterNeeds waterPred
          (listStage f.lightLevels lightPred
            (searchStage f.search ps)))))

/-! ## Sort keys (`database-storage.ts:109-139`) -/

/-- The `lightOrder` table (`database-storage.ts:116-122`), with
`lightOrder[level] || 0` for unknown levels. -/
def lightOrder (level : String) : Int :=
  if level = "Full Shade" then 1
  else if level = "Mostly Shade" then 2
  else if level = "Half Sun / Half Shade" then 3
  else if level = "Mostly Sun" then 4
  else if level = "Full Sun" then 5
  else 0

/-- `Math.max(...levels.map(l => lightOrder[l] || 0))`
(`database-storage.ts:126`): `none` is `Math.max()` of no arguments,
i.e. `-Infinity`. -/
def maxLight (p : PlantRec) : Option Int :=
  p.lightLevels.foldr
    (fun l acc =>
      match acc with
      | none => some (lightOrder l)
      | some m => some (max (lightOrder l) m)) none

/-- The `light`-sort comparator `aMaxLight - bMaxLight`
(`database-storage.ts:123-129`) rendered as a `le` test
(`comparator ≤ 0`, `NaN` treated as `0`): `-Infinity` precedes
everything and ties with itself. -/
def lightLe (a b : PlantRec) : Bool :=
  match maxLight a, maxLight b with
  | none, _ => true
  | some _, none => false
  | some x, some y => decide (x ≤ y)

/-- The value of `Math.min(...)` over the parsed zone numbers of one
plant: `inf` is `Math.min()` of no arguments (`+Infinity`); `nan` records
that some label failed to parse (`parseInt` returned `NaN`, which
poisons `Math.min`). -/
inductive ZoneKey where
  | nan
  | fin (n : Int)
  | inf
deriving DecidableEq, Repr

/-- Decimal value of a run of digits; `none` when the run is empty
(`parseInt` returns `NaN`). -/
def digitsVal (cs : List Char) : Option Nat :=
  let ds := cs.takeWhile Char.isDigit
  if ds.isEmpty then none
  else some (ds.foldl (fun acc c => 10 * acc + (c.toNat - '0'.toNat)) 0)

/-- JavaScript `parseInt` on a character list (decimal form: optional
leading whitespace, optional sign, leading digit run; `none` is `NaN`).
The hexadecimal `0x` prefix form is not modelled. -/
def jsParseInt (cs0 : List Char) : Option Int :=
  let cs := cs0.dropWhile (fun c => c == ' ' || c == '\t' || c == '\n' || c == '\r')
  match cs with
  | '-' :: rest => (digitsVal rest).map (fun n => -(n : Int))
  | '+' :: rest => (digitsVal rest).map (fun n => (n : Int))
  | _ => (digitsVal cs).map (fun n => (n : Int))

/-- `zone.replace(/[ab]/, '')`: remove the first occurrence of the
character `a` or `b` (the regex has no `g` flag). -/
def removeFirstAB : List Char → List Char
  | [] => []
  | c :: rest => if c == 'a' || c == 'b' then rest else c :: removeFirstAB rest

/-- `parseInt(pz.zone.zone.replace(/[ab]/, ''))`
(`database-storage.ts:133`). -/
def zoneNum (z : String) : Option Int :=
  jsParseInt (removeFirstAB z.data)

/-- `Math.min(...plant.plantZones.map(pz => parseInt(...)))`
(`database-storage.ts:133-134`). -/
def minZone (p : PlantRec) : ZoneKey :=
  p.zones.foldr
    (fun z acc =>
      match zoneNum z, acc with
      | none, _ => ZoneKey.nan
      | _, ZoneKey.nan => ZoneKey.nan
      | some x, ZoneKey.inf => ZoneKey.fin x
      | some x, ZoneKey.fin y => ZoneKey.fin (min x y)) ZoneKey.inf

/-- `le` on zone keys: `aMinZone - bMinZone ≤ 0`, with the `NaN`
comparator value treated as `0` (a tie) per the ECMAScript
`SortCompare` specification. -/
def zkeyLe : ZoneKey → ZoneKey → Bool
  | ZoneKey.nan, _ => true
  | _, ZoneKey.nan => true
  | ZoneKey.fin x, ZoneKey.fin y => decide (x ≤ y)
  | ZoneKey.fin _, ZoneKey.inf => true
  | ZoneKey.inf, ZoneKey.fin _ => false
  | ZoneKey.inf, ZoneKey.inf => true

/-- The `name`-sort comparator `a.name.localeCompare(b.name)`
(`database-storage.ts:113`) rendered as a `le` test. -/
def nameLe (a b : PlantRec) : Bool :=
  decide (a.name ≤ b.name)

/-- The `zone`-sort comparator (`database-storage.ts:132-136`) rendered
as a `le` test. -/
def zoneLe (a b : PlantRec) : Bool :=
  zkeyLe (minZone a) (minZone b)

/-- The sorting switch of `getPlants` (`database-storage.ts:110-139`):
a stable sort (ECMAScript `Array.prototype.sort`) by the selected
comparator; no sort key leaves the filtered order unchanged. -/
def sortStep (os : Option SortKey) (ps : List PlantRec) : List PlantRec :=
  match os with
  | none => ps
  | some SortKey.name => ps.mergeSort nameLe
  | some SortKey.light => ps.mergeSort lightLe
  | some SortKey.zone => ps.mergeSort zoneLe

/-! ## The listing operation -/

/-- `DatabaseStorage.getPlants` (`database-storage.ts:34-161`): filter,
sort, paginate.  `filter?.page || 1` and `filter?.limit || 15` are the
JavaScript truthiness fallbacks (`0` is falsy); `slice(offset, offset +
limit)` is `drop`/`take`; `Math.ceil(totalCount / limit)` is ceiling
division. -/
def getPlants (dataset : List PlantRec) (filter : Option PlantFilter) :
    PaginatedPlantsResponse :=
  let filteredPlants :=
    match filter with
    | none => dataset
    | some f => sortStep f.sort (filterStep f dataset)
  let totalCount := filteredPlants.length
  let page := match filter with
    | none => 1
    | some f => if f.page = 0 then 1 else f.page
  let limit := match filter with
    | none => 15
    | some f => if f.limit = 0 then 15 else f.limit
  let offset := (page - 1) * limit
  let paginatedPlants := (filteredPlants.drop offset).take limit
  let totalPages := (totalCount + limit - 1) / limit
  { plants := paginatedPlants
    totalCount := totalCount
    currentPage := page
    totalPages := totalPages
    hasNextPage := decide (page < totalPages)
    hasPreviousPage := decide (1 < page) }

/-! ## Per-plant pass predicates

`filterStep` is a chain of conditional `filter`s; each stage admits a
per-plant pass predicate (`true` when the stage is inactive). -/

/-- Pass predicate of the search stage. -/
def searchPass (os : Option String) (p : PlantRec) : Bool :=
  match os with
  | none => true
  | some s => if s = "" then true else searchPred s p

/-- Pass predicate of a value-list stage. -/
def stagePass (ol : Option (List String)) (pred : List String → PlantRec → Bool)
    (p : PlantRec) : Bool :=
  match ol with
  | none => true
  | some vs => if vs.length > 0 then pred vs p else true

/-- A plant passes the whole filter specification: conjunction (logical
AND) of the six per-category passes. -/
def matchesF (f : PlantFilter) (p : PlantRec) : Bool :=
  searchPass f.search p &&
  stagePass f.lightLevels lightPred p &&
  stagePass f.waterNeeds waterPred p &&
  stagePass f.growZones zonePred p &&
  stagePass f.bloomSeasons bloomPred p &&
  stagePass f.heightTexts heightPred p

/-- Numeric value of a finite zone key (used to state sortedness of the
`zone` sort under the assumption that every key is finite). -/
def zoneFinVal : ZoneKey → Int
  | ZoneKey.fin n => n
  | _ => 0

/-- Equality of the sort keys selected by a sort specification (used to
state stability: plants with equal keys keep their relative order). -/
def sortKeysEq : Option SortKey → PlantRec → PlantRec → Prop
  | none, _, _ => True
  | some SortKey.name, a, b => a.name = b.name
  | some SortKey.light, a, b => maxLight a = maxLight b
  | some SortKey.zone, a, b => minZone a = minZone b

/-! ## Concrete fixtures

Small concrete plants and filter specifications used by the witnesses
and counterexamples below. -/

def wRose : PlantRec :=
  ⟨1, "Rose Campion", "Lychnis coronaria", "silvery foliage among roses", "low",
    some "Short", ["Full Sun"], ["5a", "6a"], ["Summer"]⟩

def wTulip : PlantRec :=
  ⟨2, "Tulip", "Tulipa", "classic spring bulb", "medium",
    some "Medium", ["Full Sun"], ["3a"], ["Spring"]⟩

/-- Plant X of the C8 scenario: zones `{"6a", "6b"}`. -/
def wZoneX : PlantRec :=
  ⟨3, "X", "Xus", "plant X", "low", some "Tall", ["Full Sun"], ["6a", "6b"], ["Summer"]⟩

/-- Plant Y of the C8 scenario: zones `{"5a"}`. -/
def wZoneY : PlantRec :=
  ⟨4, "Y", "Yus", "plant Y", "low", some "Tall", ["Full Sun"], ["5a"], ["Summer"]⟩

/-- A plant with zero zones and zero bloom seasons. -/
def wNoZones : PlantRec :=
  ⟨5, "Z", "Zus", "plant Z", "low", some "Tall", ["Full Sun"], [], []⟩

/-- A plant whose `heightText` is the empty string (falsy in JS). -/
def wEmptyHeight : PlantRec :=
  ⟨6, "E", "Eus", "plant E", "low", some "", ["Full Sun"], ["5a"], ["Summer"]⟩

/-- A second plant named `"X"` (same name as `wZoneX`, different row):
a tie for the `name` sort. -/
def wXDup : PlantRec :=
  ⟨7, "X", "Xus2", "another plant X", "medium", some "Short", [], ["5a"], []⟩

/-- The empty specification with the validated defaults `page = 1`,
`limit = 15`. -/
def emptyFilter : PlantFilter :=
  ⟨none, none, none, none, none, none, none, 1, 15⟩

/-- Empty specification with a chosen sort key. -/
def sortedFilter (k : SortKey) : PlantFilter :=
  ⟨none, none, none, none, none, none, some k, 1, 15⟩

/-- Empty specification with a chosen grow-zones entry. -/
def growZonesFilter (ov : Option (List String)) : PlantFilter :=
  ⟨none, none, none, ov, none, none, none, 1, 15⟩

/-- Empty specification with a chosen light-levels entry. -/
def lightLevelsFilter (ov : Option (List String)) : PlantFilter :=
  ⟨none, ov, none, none, none, none, none, 1, 15⟩

/-- Empty specification with a chosen height-categories entry. -/
def heightTextsFilter (ov : Option (List String)) : PlantFilter :=
  ⟨none, none, none, none, none, ov, none, 1, 15⟩

/-- Fixture filter for the C1 witness: sort by name, page 2, page size 1. -/
def wF1 : PlantFilter :=
  ⟨none, none, none, none, none, none, some SortKey.name, 2, 1⟩

/-- `needle` occurs case-insensitively as a contiguous substring of
`hay` (spec-side notion used to characterize the search filter). -/
def CaseInsensitiveSubstr (needle hay : String) : Prop :=
  ∃ pre post, hay.toLower.data = pre ++ needle.toLower.data ++ post

theorem searchStage_eq_filter (os : Option String) (ps : List PlantRec) :
    searchStage os ps = ps.filter (searchPass os) := by
  cases os with
  | none =>
    symm
    exact (List.filter_congr (fun a _ => rfl)).trans (List.filter_true ps)
  | some s =>
    by_cases hs : s = ""
    · subst hs
      symm
      exact (List.filter_congr (fun a _ => rfl)).trans (List.filter_true ps)
    · simp only [searchStage, if_neg hs]
      exact List.filter_congr (fun a _ => by simp [searchPass, hs])

theorem listStage_eq_filter (ol : Option (List String))
    (pred : List String → PlantRec → Bool) (ps : List PlantRec) :
    listStage ol pred ps = ps.filter (stagePass ol pred) := by
  cases ol with
  | none =>
    symm
    exact (List.filter_congr (fun a _ => rfl)).trans (List.filter_true ps)
  | some vs =>
    by_cases hv : vs.length > 0
    · simp only [listStage, if_pos hv]
      exact List.filter_congr (fun a _ => by simp [stagePass, hv])
    · simp only [listStage, if_neg hv]
      symm
      exact (List.filter_congr (fun a _ => by simp [stagePass, hv])).trans
        (List.filter_true ps)

/-- The filtering pipeline is one `filter` by the conjunction of the
per-category passes. -/
theorem filterStep_eq_filter (f : PlantFilter) (ps : List PlantRec) :
    filterStep f ps = ps.filter (matchesF f) := by
  simp only [filterStep, searchStage_eq_filter, listStage_eq_filter,
    List.filter_filter]
  refine List.filter_congr (fun p _ => ?_)
  simp only [matchesF]
  generalize searchPass f.search p = b1
  generalize stagePass f.lightLevels lightPred p = b2
  generalize stagePass f.waterNeeds waterPred p = b3
  generalize stagePass f.growZones zonePred p = b4
  generalize stagePass f.bloomSeasons bloomPred p = b5
  generalize stagePass f.heightTexts heightPred p = b6
  revert b1 b2 b3 b4 b5 b6
  decide

/-- Count monotonicity transfer: a pointwise weaker filter matches at
least as many plants. -/
theorem filterStep_length_mono {f g : PlantFilter} (d : List PlantRec)
    (h : ∀ p ∈ d, matchesF f p = true → matchesF g p = true) :
    (filterStep f d).length ≤ (filterStep g d).length := by
  rw [filterStep_eq_filter, filterStep_eq_filter,
    ← List.countP_eq_length_filter, ← List.countP_eq_length_filter]
  exact List.countP_mono_left h

/-! ## Local stability and sortedness of `mergeSort`

The library lemmas `List.sorted_mergeSort` and
`List.pair_sublist_mergeSort` need the comparator to be transitive and
total on the whole type; the versions below only need that on the
members of the list (via `List.attach`). -/

theorem mergeSort_eq_map_attach (le : α → α → Bool) (l : List α) :
    l.mergeSort le = (l.attach.mergeSort (fun a b => le a.1 b.1)).map Subtype.val := by
  rw [@List.map_mergeSort _ _ (fun a b => le a.1 b.1) le Subtype.val l.attach
    (fun a _ b _ => rfl), List.attach_map_subtype_val]

theorem pairwise_mergeSort_of_mem (le : α → α → Bool) (l : List α)
    (htrans : ∀ a ∈ l, ∀ b ∈ l, ∀ c ∈ l, le a b = true → le b c = true → le a c = true)
    (htotal : ∀ a ∈ l, ∀ b ∈ l, le a b || le b a) :
    (l.mergeSort le).Pairwise (fun a b => le a b = true) := by
  rw [mergeSort_eq_map_attach le l, List.pairwise_map]
  exact List.sorted_mergeSort
    (fun a b c hab hbc => htrans a.1 a.2 b.1 b.2 c.1 c.2 hab hbc)
    (fun a b => htotal a.1 a.2 b.1 b.2) l.attach

theorem pair_sublist_mergeSort_of_mem (le : α → α → Bool) (l : List α)
    (htrans : ∀ a ∈ l, ∀ b ∈ l, ∀ c ∈ l, le a b = true → le b c = true → le a c = true)
    (htotal : ∀ a ∈ l, ∀ b ∈ l, le a b || le b a)
    {a b : α} (hab : le a b = true) (h : List.Sublist [a, b] l) :
    List.Sublist [a, b] (l.mergeSort le) := by
  rw [mergeSort_eq_map_attach le l]
  have h' : List.Sublist [a, b] (l.attach.map Subtype.val) := by
    rwa [List.attach_map_subtype_val]
  obtain ⟨c, hc, hcm⟩ := List.sublist_map_iff.mp h'
  match c, hcm with
  | [a', b'], hcm =>
    simp only [List.map_cons, List.map_nil, List.cons.injEq, and_true] at hcm
    obtain ⟨ha, hb⟩ := hcm
    have hab' : le a'.1 b'.1 = true := by
      rw [← ha, ← hb]
      exact hab
    have hsub : List.Sublist [a', b']
        (l.attach.mergeSort (fun x y => le x.1 y.1)) :=
      List.pair_sublist_mergeSort
        (fun x y z hxy hyz => htrans x.1 x.2 y.1 y.2 z.1 z.2 hxy hyz)
        (fun x y => htotal x.1 x.2 y.1 y.2) hab' hc
    have hmap := hsub.map Subtype.val
    simpa [ha, hb] using hmap

/-! ## Substring characterization

`strIncludes hay needle` holds exactly when `needle` occurs contiguously
inside `hay`: there is a decomposition `hay = pre ++ needle ++ post`. -/

theorem isPrefixOf_iff_append {xs ys : List Char} :
    xs.isPrefixOf ys = true ↔ ∃ t, ys = xs ++ t := by
  induction xs generalizing ys with
  | nil => simp [List.isPrefixOf]
  | cons x xs ih =>
    cases ys with
    | nil => simp [List.isPrefixOf]
    | cons y ys =>
      simp only [List.isPrefixOf, Bool.and_eq_true, beq_iff_eq, ih,
        List.cons_append, List.cons.injEq]
      constructor
      · rintro ⟨rfl, t, rfl⟩
        exact ⟨t, rfl, rfl⟩
      · rintro ⟨t, rfl, rfl⟩
        exact ⟨rfl, t, rfl⟩

theorem containsSeq_iff {needle hay : List Char} :
    containsSeq needle hay = true ↔ ∃ pre post, hay = pre ++ needle ++ post := by
  induction hay with
  | nil =>
    simp only [containsSeq, List.isEmpty_iff]
    constructor
    · rintro rfl
      exact ⟨[], [], rfl⟩
    · rintro ⟨pre, post, h⟩
      rcases List.append_eq_nil.mp (List.append_eq_nil.mp h.symm).1 with ⟨-, h2⟩
      exact h2
  | cons c rest ih =>
    simp only [containsSeq, Bool.or_eq_true, isPrefixOf_iff_append, ih]
    constructor
    · rintro (⟨t, h⟩ | ⟨pre, post, h⟩)
      · exact ⟨[], t, by simpa using h⟩
      · exact ⟨c :: pre, post, by simp [h]⟩
    · rintro ⟨pre, post, h⟩
      cases pre with
      | nil =>
        left
        exact ⟨post, by simpa using h⟩
      | cons d pre' =>
        right
        simp only [List.cons_append, List.cons.injEq] at h
        exact ⟨pre', post, h.2⟩

theorem strIncludes_iff {hay needle : String} :
    strIncludes hay needle = true ↔
      ∃ pre post, hay.data = pre ++ needle.data ++ post := by
  exact containsSeq_iff

/-! ## Order properties of the three comparators -/

theorem nameLe_trans (a b c : PlantRec) :
    nameLe a b = true → nameLe b c = true → nameLe a c = true := by
  simp only [nameLe, decide_eq_true_eq]
  exact le_trans

theorem nameLe_total (a b : PlantRec) : nameLe a b || nameLe b a := by
  simp only [nameLe, Bool.or_eq_true, decide_eq_true_eq]
  exact le_total _ _

theorem lightLe_trans (a b c : PlantRec) :
    lightLe a b = true → lightLe b c = true → lightLe a c = true := by
  unfold lightLe
  cases maxLight a <;> cases maxLight b <;> cases maxLight c <;>
    simp only [decide_eq_true_eq] <;> first
     | (intro h1 h2; omega)
     | (intro h1 h2; exact h1.elim)
     | (intro h1 h2; exact h2.elim)
     | (intros; rfl)
     | (intros; trivial)

theorem lightLe_total (a b : PlantRec) : lightLe a b || lightLe b a := by
  unfold lightLe
  cases maxLight a <;> cases maxLight b <;>
    simp only [Bool.or_eq_true, decide_eq_true_eq, Bool.or_true, Bool.true_or] <;>
    omega

theorem zkeyLe_trans {x y z : ZoneKey} (hx : x ≠ ZoneKey.nan)
    (hy : y ≠ ZoneKey.nan) (hz : z ≠ ZoneKey.nan) :
    zkeyLe x y = true → zkeyLe y z = true → zkeyLe x z = true := by
  cases x <;> cases y <;> cases z <;>
    simp_all [zkeyLe, decide_eq_true_eq] <;> omega

theorem zkeyLe_total (x y : ZoneKey) : zkeyLe x y || zkeyLe y x := by
  cases x <;> cases y <;>
    simp [zkeyLe, decide_eq_true_eq] <;> omega

theorem zkeyLe_refl (x : ZoneKey) : zkeyLe x x = true := by
  cases x <;> simp [zkeyLe]

/-! ## Unfolding `getPlants` for a validated specification -/

/-- For a validated specification (`page ≥ 1`, `limit ≥ 1`), the
truthiness fallbacks `filter?.page || 1`, `filter?.limit || 15` are
inert and `getPlants` reduces to filter–sort–slice with metadata. -/
theorem getPlants_eq (d : List PlantRec) (f : PlantFilter)
    (hp : 1 ≤ f.page) (hl : 1 ≤ f.limit) :
    getPlants d (some f) =
      { plants := ((sortStep f.sort (filterStep f d)).drop
            ((f.page - 1) * f.limit)).take f.limit
        totalCount := (sortStep f.sort (filterStep f d)).length
        currentPage := f.page
        totalPages := ((sortStep f.sort (filterStep f d)).length + f.limit - 1) / f.limit
        hasNextPage := decide (f.page <
          ((sortStep f.sort (filterStep f d)).length + f.limit - 1) / f.limit)
        hasPreviousPage := decide (1 < f.page) } := by
  have hp0 : ¬ f.page = 0 := by omega
  have hl0 : ¬ f.limit = 0 := by omega
  simp only [getPlants, if_neg hp0, if_neg hl0]

/-- The ceiling bound `totalCount ≤ totalPages * limit` for
`totalPages = (totalCount + limit - 1) / limit`, `limit ≥ 1`. -/
theorem le_ceil_mul (n l : Nat) (hl : 1 ≤ l) :
    n ≤ ((n + l - 1) / l) * l := by
  have hmod := Nat.div_add_mod (n + l - 1) l
  have hr : (n + l - 1) % l < l := Nat.mod_lt _ (by omega)
  rw [Nat.mul_comm]
  generalize hq : l * ((n + l - 1) / l) = P at hmod
  omega

/-- Sorting never changes the number of plants. -/
theorem sortStep_length (os : Option SortKey) (l : List PlantRec) :
    (sortStep os l).length = l.length := by
  cases os with
  | none => rfl
  | some k => cases k <;> simp [sortStep]

/-! ## C1 — pagination slice -/

/-- **C1.** For every validated filter specification, the `plants` array
returned by `getPlants` is exactly the slice `[(page-1)*limit,
page*limit)` of the sorted filtered sequence, clamped to the sequence
bounds (drop/take clamp exactly like `Array.prototype.slice`); its
length is `min(limit, max(0, totalCount - (page-1)*limit))` (truncated
`Nat` subtraction is `max 0`); and a page number beyond `totalPages`
yields an empty slice, not an error. -/
theorem c1_page_slice (d : List PlantRec) (f : PlantFilter)
    (hp : 1 ≤ f.page) (hl : 1 ≤ f.limit) :
    (getPlants d (some f)).plants =
      ((sortStep f.sort (filterStep f d)).drop ((f.page - 1) * f.limit)).take f.limit ∧
    (getPlants d (some f)).plants.length =
      min f.limit ((sortStep f.sort (filterStep f d)).length - (f.page - 1) * f.limit) ∧
    ((getPlants d (some f)).totalPages < f.page → (getPlants d (some f)).plants = []) := by
  rw [getPlants_eq d f hp hl]
  refine ⟨rfl, ?_, ?_⟩
  · simp
  · intro hlt
    have h1 : (sortStep f.sort (filterStep f d)).length ≤
        (((sortStep f.sort (filterStep f d)).length + f.limit - 1) / f.limit) * f.limit :=
      le_ceil_mul _ _ hl
    have h2 : (((sortStep f.sort (filterStep f d)).length + f.limit - 1) / f.limit) *
        f.limit ≤ (f.page - 1) * f.limit := by
      apply Nat.mul_le_mul_right
      simp only at hlt
      omega
    simp only
    rw [List.drop_eq_nil_of_le (le_trans h1 h2), List.take_nil]

/-- Witness for C1 at a concrete dataset and specification
(two plants, sort by name, page 2 of size 1). -/
theorem c1_page_slice_witness :
    (getPlants [wRose, wTulip] (some wF1)).plants =
      ((sortStep wF1.sort (filterStep wF1 [wRose, wTulip])).drop
        ((wF1.page - 1) * wF1.limit)).take wF1.limit ∧
    (getPlants [wRose, wTulip] (some wF1)).plants.length =
      min wF1.limit
        ((sortStep wF1.sort (filterStep wF1 [wRose, wTulip])).length -
          (wF1.page - 1) * wF1.limit) ∧
    ((getPlants [wRose, wTulip] (some wF1)).totalPages < wF1.page →
      (getPlants [wRose, wTulip] (some wF1)).plants = []) :=
  c1_page_slice [wRose, wTulip] wF1 (by decide) (by decide)

/-! ## C2 — pagination metadata -/

/-- **C2.** For every validated filter specification: `totalCount` is the
size of the unpaginated filtered set and does not depend on `page` or
`limit`; `totalPages` is the ceiling of `totalCount / limit`
(characterized by `totalPages = 0` when `totalCount = 0` and by the two
ceiling inequalities otherwise); `hasNextPage = (page < totalPages)`;
`hasPreviousPage = (page > 1)`; and the empty specification with the
default `page = 1`, `limit = 15` on an empty dataset returns
`plants = []`, `totalCount = 0`, `totalPages = 0`, `hasNextPage = false`,
`hasPreviousPage = false`. -/
theorem c2_metadata (d : List PlantRec) (f : PlantFilter)
    (hp : 1 ≤ f.page) (hl : 1 ≤ f.limit) :
    (getPlants d (some f)).totalCount = (filterStep f d).length ∧
    (∀ p' l' : Nat,
      (getPlants d (some ⟨f.search, f.lightLevels, f.waterNeeds, f.growZones,
        f.bloomSeasons, f.heightTexts, f.sort, p', l'⟩)).totalCount =
      (getPlants d (some f)).totalCount) ∧
    ((getPlants d (some f)).totalCount = 0 → (getPlants d (some f)).totalPages = 0) ∧
    (0 < (getPlants d (some f)).totalCount →
      ((getPlants d (some f)).totalPages - 1) * f.limit <
        (getPlants d (some f)).totalCount ∧
      (getPlants d (some f)).totalCount ≤
        (getPlants d (some f)).totalPages * f.limit) ∧
    (getPlants d (some f)).hasNextPage =
      decide (f.page < (getPlants d (some f)).totalPages) ∧
    (getPlants d (some f)).hasPreviousPage = decide (1 < f.page) ∧
    getPlants [] (some emptyFilter) = ⟨[], 0, 1, 0, false, false⟩ := by
  rw [getPlants_eq d f hp hl]
  refine ⟨sortStep_length _ _, fun p' l' => rfl, ?_, ?_, rfl, rfl, rfl⟩
  · intro h
    simp only at h ⊢
    rw [h]
    exact Nat.div_eq_of_lt (by omega)
  · intro h
    simp only at h ⊢
    have h1 : (sortStep f.sort (filterStep f d)).length ≤
        (((sortStep f.sort (filterStep f d)).length + f.limit - 1) / f.limit) * f.limit :=
      le_ceil_mul _ _ hl
    have h2 : (((sortStep f.sort (filterStep f d)).length + f.limit - 1) / f.limit) *
        f.limit ≤ (sortStep f.sort (filterStep f d)).length + f.limit - 1 :=
      Nat.div_mul_le_self _ _
    rw [Nat.sub_one_mul]
    generalize (((sortStep f.sort (filterStep f d)).length + f.limit - 1) / f.limit) *
        f.limit = P at h1 h2 ⊢
    omega

/-- Witness for C2 at a concrete dataset and specification. -/
theorem c2_metadata_witness :
    (getPlants [wRose, wTulip] (some wF1)).totalCount =
      (filterStep wF1 [wRose, wTulip]).length ∧
    (∀ p' l' : Nat,
      (getPlants [wRose, wTulip] (some ⟨wF1.search, wF1.lightLevels, wF1.waterNeeds,
        wF1.growZones, wF1.bloomSeasons, wF1.heightTexts, wF1.sort, p', l'⟩)).totalCount =
      (getPlants [wRose, wTulip] (some wF1)).totalCount) ∧
    ((getPlants [wRose, wTulip] (some wF1)).totalCount = 0 →
      (getPlants [wRose, wTulip] (some wF1)).totalPages = 0) ∧
    (0 < (getPlants [wRose, wTulip] (some wF1)).totalCount →
      ((getPlants [wRose, wTulip] (some wF1)).totalPages - 1) * wF1.limit <
        (getPlants [wRose, wTulip] (some wF1)).totalCount ∧
      (getPlants [wRose, wTulip] (some wF1)).totalCount ≤
        (getPlants [wRose, wTulip] (some wF1)).totalPages * wF1.limit) ∧
    (getPlants [wRose, wTulip] (some wF1)).hasNextPage =
      decide (wF1.page < (getPlants [wRose, wTulip] (some wF1)).totalPages) ∧
    (getPlants [wRose, wTulip] (some wF1)).hasPreviousPage = decide (1 < wF1.page) ∧
    getPlants [] (some emptyFilter) = ⟨[], 0, 1, 0, false, false⟩ :=
  c2_metadata [wRose, wTulip] wF1 (by decide) (by decide)

/-! ## C3 — AND across categories, OR within a category -/

/-- **C3.** A plant is in the filtered set iff it is in the dataset and
passes every category (logical AND across categories); each category's
pass predicate is an OR over its value-list (`lightPred`, `zonePred`,
`bloomPred` are `List.any`, `waterPred`/`heightPred` are membership);
an empty or absent value-list imposes no constraint (its stage passes
every plant). -/
theorem c3_and_or_semantics (f : PlantFilter) (d : List PlantRec) (p : PlantRec) :
    (p ∈ filterStep f d ↔
      p ∈ d ∧ searchPass f.search p = true ∧
      stagePass f.lightLevels lightPred p = true ∧
      stagePass f.waterNeeds waterPred p = true ∧
      stagePass f.growZones zonePred p = true ∧
      stagePass f.bloomSeasons bloomPred p = true ∧
      stagePass f.heightTexts heightPred p = true) ∧
    (∀ pred : List String → PlantRec → Bool, stagePass none pred p = true) ∧
    (∀ pred : List String → PlantRec → Bool, stagePass (some []) pred p = true) := by
  refine ⟨?_, fun pred => rfl, fun pred => rfl⟩
  rw [filterStep_eq_filter, List.mem_filter]
  simp [matchesF, Bool.and_eq_true, and_assoc]

/-! ## C4 — search semantics -/

/-- **C4.** With non-empty search text `s`, the search stage retains a
plant iff `s` is a case-insensitive substring of its name, scientific
name, or description; an absent (or empty, hence falsy) search text
retains every plant. -/
theorem c4_search (d : List PlantRec) (s : String) (p : PlantRec) (hs : s ≠ "") :
    (p ∈ searchStage (some s) d ↔
      p ∈ d ∧ (CaseInsensitiveSubstr s p.name ∨
        CaseInsensitiveSubstr s p.scientificName ∨
        CaseInsensitiveSubstr s p.description)) ∧
    searchStage none d = d ∧
    searchStage (some "") d = d := by
  refine ⟨?_, rfl, rfl⟩
  simp only [searchStage, if_neg hs, List.mem_filter, searchPred,
    Bool.or_eq_true, strIncludes_iff, CaseInsensitiveSubstr]
  rw [or_assoc]

/-- Witness for C4: `"rose"` (case-insensitively) is found in the name
`"Rose Campion"`; the empty/absent search text retains everything. -/
theorem c4_search_witness :
    (wRose ∈ searchStage (some "rose") [wRose, wTulip] ↔
      wRose ∈ [wRose, wTulip] ∧ (CaseInsensitiveSubstr "rose" wRose.name ∨
        CaseInsensitiveSubstr "rose" wRose.scientificName ∨
        CaseInsensitiveSubstr "rose" wRose.description)) ∧
    searchStage none [wRose, wTulip] = [wRose, wTulip] ∧
    searchStage (some "") [wRose, wTulip] = [wRose, wTulip] :=
  c4_search [wRose, wTulip] "rose" wRose (by decide)

/-! ## C5 — monotonicity of filtering -/

theorem lightPred_cons (v : String) (ls : List String) (p : PlantRec) :
    lightPred ls p = true → lightPred (v :: ls) p = true := by
  intro h
  simp only [lightPred, List.any_cons, Bool.or_eq_true]
  exact Or.inr h

theorem zonePred_cons (v : String) (ls : List String) (p : PlantRec) :
    zonePred ls p = true → zonePred (v :: ls) p = true := by
  intro h
  simp only [zonePred, List.any_cons, Bool.or_eq_true]
  exact Or.inr h

theorem bloomPred_cons (v : String) (ls : List String) (p : PlantRec) :
    bloomPred ls p = true → bloomPred (v :: ls) p = true := by
  intro h
  simp only [bloomPred, List.any_cons, Bool.or_eq_true]
  exact Or.inr h

theorem waterPred_cons (v : String) (ls : List String) (p : PlantRec) :
    waterPred ls p = true → waterPred (v :: ls) p = true := by
  intro h
  simp only [waterPred, List.contains_cons, Bool.or_eq_true] at h ⊢
  exact Or.inr (by simpa [waterPred] using h)

theorem heightPred_cons (v : String) (ls : List String) (p : PlantRec) :
    heightPred ls p = true → heightPred (v :: ls) p = true := by
  rcases hh : p.heightText with _ | t
  · simp [heightPred, hh]
  · by_cases ht : t = ""
    · simp [heightPred, hh, ht]
    · simp only [heightPred, hh, if_neg ht, List.contains_cons, Bool.or_eq_true]
      intro h
      exact Or.inr h

/-- Adding a value to an active (non-empty) value-list weakens the
stage's pass predicate. -/
theorem stagePass_mono_cons (pred : List String → PlantRec → Bool)
    (hmono : ∀ vs v p, pred vs p = true → pred (v :: vs) p = true)
    (v : String) (ls : List String) (hls : ls ≠ []) (p : PlantRec) :
    stagePass (some ls) pred p = true → stagePass (some (v :: ls)) pred p = true := by
  have h1 : ls.length > 0 := List.length_pos.mpr hls
  simp only [stagePass, if_pos h1, List.length_cons]
  intro h
  rw [if_pos (by omega)]
  exact hmono ls v p h

/-- **C5 counterexample.** As stated, the claim is false: adding a value
to an *empty* value-list activates the category (an empty list means "no
constraint", a singleton constrains), so the matched count can drop —
here from 1 to 0 on a one-plant dataset whose only plant lacks the added
light level. -/
theorem c5_counterexample :
    ¬ ((filterStep (lightLevelsFilter (some [])) [wTulip]).length ≤
       (filterStep (lightLevelsFilter (some ["Full Shade"])) [wTulip]).length) := by
  decide

/-- **C5 (amended).** Monotonicity holds for *active* categories: adding
one more value to a non-empty value-list never decreases the matched
count (first five conjuncts, one per category), and activating an
additional category never yields more matches than without it — hence
never more than either category alone (last five conjuncts). -/
theorem c5_monotone (d : List PlantRec) (f : PlantFilter) (v : String)
    (ls vs : List String) (hls : ls ≠ []) :
    ((filterStep { f with lightLevels := some ls } d).length ≤
      (filterStep { f with lightLevels := some (v :: ls) } d).length) ∧
    ((filterStep { f with waterNeeds := some ls } d).length ≤
      (filterStep { f with waterNeeds := some (v :: ls) } d).length) ∧
    ((filterStep { f with growZones := some ls } d).length ≤
      (filterStep { f with growZones := some (v :: ls) } d).length) ∧
    ((filterStep { f with bloomSeasons := some ls } d).length ≤
      (filterStep { f with bloomSeasons := some (v :: ls) } d).length) ∧
    ((filterStep { f with heightTexts := some ls } d).length ≤
      (filterStep { f with heightTexts := some (v :: ls) } d).length) ∧
    ((filterStep { f with lightLevels := some vs } d).length ≤
      (filterStep { f with lightLevels := none } d).length) ∧
    ((filterStep { f with waterNeeds := some vs } d).length ≤
      (filterStep { f with waterNeeds := none } d).length) ∧
    ((filterStep { f with growZones := some vs } d).length ≤
      (filterStep { f with growZones := none } d).length) ∧
    ((filterStep { f with bloomSeasons := some vs } d).length ≤
      (filterStep { f with bloomSeasons := none } d).length) ∧
    ((filterStep { f with heightTexts := some vs } d).length ≤
      (filterStep { f with heightTexts := none } d).length) := by
  refine ⟨?_, ?_, ?_, ?_, ?_, ?_, ?_, ?_, ?_, ?_⟩ <;>
    apply filterStep_length_mono <;>
    intro p _ hp <;>
    simp only [matchesF, Bool.and_eq_true] at hp ⊢ <;>
    obtain ⟨⟨⟨⟨⟨h1, h2⟩, h3⟩, h4⟩, h5⟩, h6⟩ := hp
  · exact ⟨⟨⟨⟨⟨h1, stagePass_mono_cons lightPred
      (fun vs' v' p' => lightPred_cons v' vs' p') v ls hls p h2⟩, h3⟩, h4⟩, h5⟩, h6⟩
  · exact ⟨⟨⟨⟨⟨h1, h2⟩, stagePass_mono_cons waterPred
      (fun vs' v' p' => waterPred_cons v' vs' p') v ls hls p h3⟩, h4⟩, h5⟩, h6⟩
  · exact ⟨⟨⟨⟨⟨h1, h2⟩, h3⟩, stagePass_mono_cons zonePred
      (fun vs' v' p' => zonePred_cons v' vs' p') v ls hls p h4⟩, h5⟩, h6⟩
  · exact ⟨⟨⟨⟨⟨h1, h2⟩, h3⟩, h4⟩, stagePass_mono_cons bloomPred
      (fun vs' v' p' => bloomPred_cons v' vs' p') v ls hls p h5⟩, h6⟩
  · exact ⟨⟨⟨⟨⟨h1, h2⟩, h3⟩, h4⟩, h5⟩, stagePass_mono_cons heightPred
      (fun vs' v' p' => heightPred_cons v' vs' p') v ls hls p h6⟩
  · exact ⟨⟨⟨⟨⟨h1, rfl⟩, h3⟩, h4⟩, h5⟩, h6⟩
  · exact ⟨⟨⟨⟨⟨h1, h2⟩, rfl⟩, h4⟩, h5⟩, h6⟩
  · exact ⟨⟨⟨⟨⟨h1, h2⟩, h3⟩, rfl⟩, h5⟩, h6⟩
  · exact ⟨⟨⟨⟨⟨h1, h2⟩, h3⟩, h4⟩, rfl⟩, h6⟩
  · exact ⟨⟨⟨⟨⟨h1, h2⟩, h3⟩, h4⟩, h5⟩, rfl⟩

/-- Witness for the amended C5 at a concrete dataset and lists. -/
theorem c5_monotone_witness :
    ((filterStep { emptyFilter with lightLevels := some ["low"] } [wRose, wTulip]).length ≤
      (filterStep { emptyFilter with lightLevels := some ("medium" :: ["low"]) }
        [wRose, wTulip]).length) ∧
    ((filterStep { emptyFilter with waterNeeds := some ["low"] } [wRose, wTulip]).length ≤
      (filterStep { emptyFilter with waterNeeds := some ("medium" :: ["low"]) }
        [wRose, wTulip]).length) ∧
    ((filterStep { emptyFilter with growZones := some ["low"] } [wRose, wTulip]).length ≤
      (filterStep { emptyFilter with growZones := some ("medium" :: ["low"]) }
        [wRose, wTulip]).length) ∧
    ((filterStep { emptyFilter with bloomSeasons := some ["low"] } [wRose, wTulip]).length ≤
      (filterStep { emptyFilter with bloomSeasons := some ("medium" :: ["low"]) }
        [wRose, wTulip]).length) ∧
    ((filterStep { emptyFilter with heightTexts := some ["low"] } [wRose, wTulip]).length ≤
      (filterStep { emptyFilter with heightTexts := some ("medium" :: ["low"]) }
        [wRose, wTulip]).length) ∧
    ((filterStep { emptyFilter with lightLevels := some ["Full Sun"] } [wRose, wTulip]).length ≤
      (filterStep { emptyFilter with lightLevels := none } [wRose, wTulip]).length) ∧
    ((filterStep { emptyFilter with waterNeeds := some ["Full Sun"] } [wRose, wTulip]).length ≤
      (filterStep { emptyFilter with waterNeeds := none } [wRose, wTulip]).length) ∧
    ((filterStep { emptyFilter with growZones := some ["Full Sun"] } [wRose, wTulip]).length ≤
      (filterStep { emptyFilter with growZones := none } [wRose, wTulip]).length) ∧
    ((filterStep { emptyFilter with bloomSeasons := some ["Full Sun"] } [wRose, wTulip]).length ≤
      (filterStep { emptyFilter with bloomSeasons := none } [wRose, wTulip]).length) ∧
    ((filterStep { emptyFilter with heightTexts := some ["Full Sun"] } [wRose, wTulip]).length ≤
      (filterStep { emptyFilter with heightTexts := none } [wRose, wTulip]).length) :=
  c5_monotone [wRose, wTulip] emptyFilter "medium" ["low"] ["Full Sun"] (by decide)

/-! ## C6 — sortedness of the `name` and `zone` sorts -/

/-- **C6.** On every (filtered) list: sorting with key `name` yields a
sequence whose names are non-decreasing in the lexicographic order on
strings; sorting with key `zone` yields a sequence non-decreasing in
each plant's minimum numeric zone (`minZone`, which strips the first
sub-zone letter of each label via `replace(/[ab]/, '')` and feeds it to
`parseInt`, then takes the minimum).  For the `zone` part each plant is
assumed to have a well-defined minimum numeric zone: at least one zone
(`minZone p ≠ inf`) and all labels parseable (`minZone p ≠ nan`). -/
theorem c6_sorted (l : List PlantRec)
    (hz : ∀ p ∈ l, minZone p ≠ ZoneKey.nan ∧ minZone p ≠ ZoneKey.inf) :
    (sortStep (some SortKey.name) l).Pairwise (fun a b => a.name ≤ b.name) ∧
    (sortStep (some SortKey.zone) l).Pairwise
      (fun a b => zoneFinVal (minZone a) ≤ zoneFinVal (minZone b)) := by
  constructor
  · have h := pairwise_mergeSort_of_mem nameLe l
      (fun a _ b _ c _ => nameLe_trans a b c)
      (fun a _ b _ => nameLe_total a b)
    exact h.imp (fun hab => by simpa [nameLe] using hab)
  · have h := pairwise_mergeSort_of_mem zoneLe l
      (fun a ha b hb c hc hab hbc =>
        zkeyLe_trans (hz a ha).1 (hz b hb).1 (hz c hc).1 hab hbc)
      (fun a _ b _ => zkeyLe_total _ _)
    refine h.imp_of_mem ?_
    intro a b ha hb hab
    have hza := hz a (List.mem_mergeSort.mp ha)
    have hzb := hz b (List.mem_mergeSort.mp hb)
    unfold zoneLe at hab
    rcases hka : minZone a with _ | x | _ <;> rw [hka] at hab hza
    · exact absurd rfl hza.1
    · rcases hkb : minZone b with _ | y | _ <;> rw [hkb] at hab hzb
      · exact absurd rfl hzb.1
      · simp only [zkeyLe, decide_eq_true_eq] at hab
        simpa [zoneFinVal, hka, hkb] using hab
      · exact absurd rfl hzb.2
    · exact absurd rfl hza.2

/-- Witness for C6 at a concrete three-plant list whose zone labels all
parse and which all have at least one zone. -/
theorem c6_sorted_witness :
    (∀ p ∈ [wZoneX, wRose, wTulip],
      minZone p ≠ ZoneKey.nan ∧ minZone p ≠ ZoneKey.inf) ∧
    ((sortStep (some SortKey.name) [wZoneX, wRose, wTulip]).Pairwise
      (fun a b => a.name ≤ b.name) ∧
    (sortStep (some SortKey.zone) [wZoneX, wRose, wTulip]).Pairwise
      (fun a b => zoneFinVal (minZone a) ≤ zoneFinVal (minZone b))) :=
  ⟨by decide, c6_sorted [wZoneX, wRose, wTulip] (by decide)⟩

/-! ## C7 — determinism and stability -/

/-- **C7.** The listing operation is deterministic — the embedding is a
pure function of the dataset snapshot and the specification, so two
invocations with the same arguments give the same result — and sorting
is stable: if `a` precedes `b` in the filtered (pre-sort) order and the
two have equal sort keys, then `a` still precedes `b` after sorting, so
pagination is deterministic across repeated calls.  For the `zone` key
the comparator must be consistent on the list (ECMAScript leaves the
sort order unspecified for inconsistent comparators), i.e. every zone
label of the filtered plants parses (`minZone ≠ nan`). -/
theorem c7_deterministic_stable (d : List PlantRec) (f : PlantFilter)
    (a b : PlantRec)
    (hsub : List.Sublist [a, b] (filterStep f d))
    (hkey : sortKeysEq f.sort a b)
    (hzone : f.sort = some SortKey.zone →
      ∀ p ∈ filterStep f d, minZone p ≠ ZoneKey.nan) :
    getPlants d (some f) = getPlants d (some f) ∧
    List.Sublist [a, b] (sortStep f.sort (filterStep f d)) := by
  refine ⟨rfl, ?_⟩
  rcases hf : f.sort with _ | k
  · exact hsub
  · rw [hf] at hkey
    cases k with
    | name =>
      have hab : nameLe a b = true := by
        simp only [sortKeysEq] at hkey
        simp [nameLe, hkey]
      exact pair_sublist_mergeSort_of_mem nameLe _
        (fun x _ y _ z _ => nameLe_trans x y z)
        (fun x _ y _ => nameLe_total x y) hab hsub
    | light =>
      have hab : lightLe a b = true := by
        simp only [sortKeysEq] at hkey
        unfold lightLe
        rw [hkey]
        cases maxLight b <;> simp
      exact pair_sublist_mergeSort_of_mem lightLe _
        (fun x _ y _ z _ => lightLe_trans x y z)
        (fun x _ y _ => lightLe_total x y) hab hsub
    | zone =>
      have hnan := hzone hf
      have hab : zoneLe a b = true := by
        simp only [sortKeysEq] at hkey
        unfold zoneLe
        rw [hkey]
        exact zkeyLe_refl _
      exact pair_sublist_mergeSort_of_mem zoneLe _
        (fun x hx y hy z hz2 => zkeyLe_trans (hnan x hx) (hnan y hy) (hnan z hz2))
        (fun x _ y _ => zkeyLe_total _ _) hab hsub

/-- Witness for C7: two distinct plants both named `"X"` keep their
input order under the `name` sort. -/
theorem c7_deterministic_stable_witness :
    getPlants [wZoneX, wXDup] (some (sortedFilter SortKey.name)) =
      getPlants [wZoneX, wXDup] (some (sortedFilter SortKey.name)) ∧
    List.Sublist [wZoneX, wXDup]
      (sortStep (sortedFilter SortKey.name).sort
        (filterStep (sortedFilter SortKey.name) [wZoneX, wXDup])) :=
  c7_deterministic_stable [wZoneX, wXDup] (sortedFilter SortKey.name) wZoneX wXDup
    (List.Sublist.refl _) rfl (fun h => absurd h (by decide))

/-! ## C8 — grow-zone / bloom-season matching is by exact label -/

/-- **C8 counterexample.** The claim's scenario is false on the code:
`growZones=["6"]` does NOT match plant X with zones `{"6a","6b"}`,
because matching compares whole labels
(`plantZonesValues.includes(zone)`), and `"6" ∉ {"6a","6b"}`. -/
theorem c8_counterexample :
    ¬ (wZoneX ∈ filterStep (growZonesFilter (some ["6"])) [wZoneX, wZoneY]) := by
  decide

/-- **C8 (amended).** Grow-zone and bloom-season matching intersect the
plant's label set with the value-list by exact string equality: a plant
matches a non-empty filter iff some of its labels is an element of the
value-list.  In the claim's scenario the filter must carry the exact
label: `growZones=["6a"]` matches X (zones 6a,6b) and not Y (zones 5a),
while `growZones=["6"]` matches neither. -/
theorem c8_zone_intersection (d : List PlantRec) (vs : List String)
    (p : PlantRec) (hvs : vs ≠ []) :
    (p ∈ listStage (some vs) zonePred d ↔ p ∈ d ∧ ∃ z ∈ p.zones, z ∈ vs) ∧
    (p ∈ listStage (some vs) bloomPred d ↔ p ∈ d ∧ ∃ s ∈ p.bloomSeasons, s ∈ vs) ∧
    wZoneX ∈ filterStep (growZonesFilter (some ["6a"])) [wZoneX, wZoneY] ∧
    wZoneY ∉ filterStep (growZonesFilter (some ["6a"])) [wZoneX, wZoneY] ∧
    wZoneX ∉ filterStep (growZonesFilter (some ["6"])) [wZoneX, wZoneY] ∧
    wZoneY ∉ filterStep (growZonesFilter (some ["6"])) [wZoneX, wZoneY] := by
  have hl : vs.length > 0 := List.length_pos.mpr hvs
  have hswap : ∀ (xs : List String),
      (∃ v ∈ vs, v ∈ xs) ↔ (∃ z ∈ xs, z ∈ vs) :=
    fun xs => ⟨fun ⟨v, h1, h2⟩ => ⟨v, h2, h1⟩, fun ⟨z, h1, h2⟩ => ⟨z, h2, h1⟩⟩
  refine ⟨?_, ?_, by decide, by decide, by decide, by decide⟩
  · simp only [listStage, if_pos hl, List.mem_filter, zonePred,
      List.any_eq_true, List.contains, List.elem_eq_mem, decide_eq_true_eq, hswap]
  · simp only [listStage, if_pos hl, List.mem_filter, bloomPred,
      List.any_eq_true, List.contains, List.elem_eq_mem, decide_eq_true_eq, hswap]

/-- Witness for the amended C8: `["6a"]` as the value-list, plant X. -/
theorem c8_zone_intersection_witness :
    (wZoneX ∈ listStage (some ["6a"]) zonePred [wZoneX, wZoneY] ↔
      wZoneX ∈ [wZoneX, wZoneY] ∧ ∃ z ∈ wZoneX.zones, z ∈ ["6a"]) ∧
    (wZoneX ∈ listStage (some ["6a"]) bloomPred [wZoneX, wZoneY] ↔
      wZoneX ∈ [wZoneX, wZoneY] ∧ ∃ s ∈ wZoneX.bloomSeasons, s ∈ ["6a"]) ∧
    wZoneX ∈ filterStep (growZonesFilter (some ["6a"])) [wZoneX, wZoneY] ∧
    wZoneY ∉ filterStep (growZonesFilter (some ["6a"])) [wZoneX, wZoneY] ∧
    wZoneX ∉ filterStep (growZonesFilter (some ["6"])) [wZoneX, wZoneY] ∧
    wZoneY ∉ filterStep (growZonesFilter (some ["6"])) [wZoneX, wZoneY] :=
  c8_zone_intersection [wZoneX, wZoneY] ["6a"] wZoneX (by decide)

/-! ## C9 — plants with no zones / no bloom seasons -/

/-- **C9 counterexample.** A plant with zero zones is NOT excluded from
the `zone` sort: listing a one-plant dataset with `sort=zone` still
returns that plant. -/
theorem c9_counterexample :
    wNoZones ∈ (getPlants [wNoZones] (some (sortedFilter SortKey.zone))).plants := by
  have hs : sortStep (some SortKey.zone) [wNoZones] = [wNoZones] :=
    List.mergeSort_singleton wNoZones
  simp [getPlants, sortedFilter, filterStep, listStage, searchStage, hs]

/-- **C9 (amended).** A plant with zero zones (resp. zero bloom seasons)
never matches a non-empty grow-zone (bloom-season) filter — empty
intersection is an empty match — and is rejected by those stages.  It is
NOT excluded from the `zone` sort: the sort permutes its input (nothing
is dropped); the plant's key is the sentinel `+Infinity` (`Math.min()`
of no arguments), so in a list whose other keys are well defined every
plant ordered after a sentinel plant is itself a sentinel plant (the
no-zone plants sort last). -/
theorem c9_no_zones (d : List PlantRec) (p : PlantRec) (vs : List String)
    (hz : p.zones = []) (hb : p.bloomSeasons = []) (hvs : vs ≠ []) :
    zonePred vs p = false ∧
    bloomPred vs p = false ∧
    p ∉ listStage (some vs) zonePred d ∧
    p ∉ listStage (some vs) bloomPred d ∧
    (∀ l : List PlantRec, List.Perm (sortStep (some SortKey.zone) l) l) ∧
    minZone p = ZoneKey.inf ∧
    (∀ l : List PlantRec, (∀ q ∈ l, minZone q ≠ ZoneKey.nan) →
      (sortStep (some SortKey.zone) l).Pairwise
        (fun a b => minZone a = ZoneKey.inf → minZone b = ZoneKey.inf)) := by
  have hl : vs.length > 0 := List.length_pos.mpr hvs
  have hzp : zonePred vs p = false := by
    simp [zonePred, hz]
  have hbp : bloomPred vs p = false := by
    simp [bloomPred, hb]
  refine ⟨hzp, hbp, ?_, ?_, ?_, ?_, ?_⟩
  · simp only [listStage, if_pos hl, List.mem_filter, hzp]
    simp
  · simp only [listStage, if_pos hl, List.mem_filter, hbp]
    simp
  · intro l
    exact List.mergeSort_perm l zoneLe
  · simp [minZone, hz]
  · intro l hno
    have h := pairwise_mergeSort_of_mem zoneLe l
      (fun x hx y hy z hz2 => zkeyLe_trans (hno x hx) (hno y hy) (hno z hz2))
      (fun x _ y _ => zkeyLe_total _ _)
    refine h.imp_of_mem ?_
    intro a b _ hbmem hab hainf
    have hbn := hno b (List.mem_mergeSort.mp hbmem)
    unfold zoneLe at hab
    rw [hainf] at hab
    rcases hkb : minZone b with _ | y | _
    · exact absurd hkb hbn
    · rw [hkb] at hab
      simp [zkeyLe] at hab
    · rfl

/-- Witness for the amended C9 at a concrete no-zone plant. -/
theorem c9_no_zones_witness :
    zonePred ["6a"] wNoZones = false ∧
    bloomPred ["6a"] wNoZones = false ∧
    wNoZones ∉ listStage (some ["6a"]) zonePred [wZoneX, wNoZones] ∧
    wNoZones ∉ listStage (some ["6a"]) bloomPred [wZoneX, wNoZones] ∧
    (∀ l : List PlantRec, List.Perm (sortStep (some SortKey.zone) l) l) ∧
    minZone wNoZones = ZoneKey.inf ∧
    (∀ l : List PlantRec, (∀ q ∈ l, minZone q ≠ ZoneKey.nan) →
      (sortStep (some SortKey.zone) l).Pairwise
        (fun a b => minZone a = ZoneKey.inf → minZone b = ZoneKey.inf)) :=
  c9_no_zones [wZoneX, wNoZones] wNoZones ["6a"] rfl rfl (by decide)

/-! ## C10 — height-category filter and falsy `heightText` -/

/-- **C10.** With a non-empty height value-list, the height stage retains
exactly the plants whose `heightText` is truthy (non-null and non-empty)
and a member of the value-list; a plant whose `heightText` is `null` or
the empty string never matches, even when the value-list contains the
empty string. -/
theorem c10_height (d : List PlantRec) (vs : List String) (p : PlantRec)
    (hvs : vs ≠ []) :
    (p ∈ listStage (some vs) heightPred d ↔
      p ∈ d ∧ ∃ h, p.heightText = some h ∧ h ≠ "" ∧ h ∈ vs) ∧
    (∀ q : PlantRec, q.heightText = none → heightPred vs q = false) ∧
    (∀ q : PlantRec, q.heightText = some "" → heightPred vs q = false) := by
  have hl : vs.length > 0 := List.length_pos.mpr hvs
  refine ⟨?_, ?_, ?_⟩
  · simp only [listStage, if_pos hl, List.mem_filter]
    constructor
    · rintro ⟨hpd, hpred⟩
      refine ⟨hpd, ?_⟩
      rcases hh : p.heightText with _ | t
      · simp only [heightPred, hh] at hpred
        simp at hpred
      · simp only [heightPred, hh] at hpred
        by_cases ht : t = ""
        · rw [if_pos ht] at hpred
          simp at hpred
        · rw [if_neg ht] at hpred
          exact ⟨t, rfl, ht, by simpa [List.contains, List.elem_eq_mem] using hpred⟩
    · rintro ⟨hpd, t, hh, ht, htv⟩
      refine ⟨hpd, ?_⟩
      simp only [heightPred, hh, if_neg ht]
      simpa [List.contains, List.elem_eq_mem] using htv
  · intro q hq
    simp [heightPred, hq]
  · intro q hq
    simp [heightPred, hq]

/-- Witness for C10: the value-list `[""]` (containing the empty string)
does not match a plant whose `heightText` is the empty string. -/
theorem c10_height_witness :
    (wEmptyHeight ∈ listStage (some [""]) heightPred [wEmptyHeight, wRose] ↔
      wEmptyHeight ∈ [wEmptyHeight, wRose] ∧
        ∃ h, wEmptyHeight.heightText = some h ∧ h ≠ "" ∧ h ∈ [""]) ∧
    (∀ q : PlantRec, q.heightText = none → heightPred [""] q = false) ∧
    (∀ q : PlantRec, q.heightText = some "" → heightPred [""] q = false) :=
  c10_height [wEmptyHeight, wRose] [""] wEmptyHeight (by decide)

end MySoilMate
